import Mathlib

/-!
Shallow embedding of the context-aware interruption handler
(`interruption_handler_mrinank.py`) and its specification properties.

Strings are modelled as Lean `String`s, with character-level lowering,
uppering and trimming defined as explicit maps over `String.data`, matching
the ASCII behaviour of `str.lower`, `str.upper` and `str.strip` on the
vocabulary at hand.  The `re.findall(r'\b\w+\b', text.lower())` tokenizer is
embedded as extraction of maximal runs of alphanumeric/underscore characters
from the lower-cased character list.
-/

/-- A word character in the sense of the `\w` regex class (ASCII reading):
alphanumeric or underscore. -/
def isWordChar (c : Char) : Bool := c.isAlphanum || c = '_'

/-- Model of `str.lower`: lower-case every character. -/
def py_lower (s : String) : String := String.mk (s.data.map Char.toLower)

/-- Model of `str.upper`: upper-case every character. -/
def py_upper (s : String) : String := String.mk (s.data.map Char.toUpper)

/-- Model of `str.strip`: remove leading and trailing whitespace. -/
def py_strip (s : String) : String :=
  String.mk (((s.data.dropWhile Char.isWhitespace).reverse.dropWhile
    Char.isWhitespace).reverse)

/-- Configuration for the interruption handler (`InterruptionHandlerConfig`). -/
structure InterruptionHandlerConfig where
  ignore_list : List String
  enabled : Bool
  min_interrupt_words : Nat
  verbose_logging : Bool

/-- The dataclass defaults of `InterruptionHandlerConfig`. -/
def default_config : InterruptionHandlerConfig :=
  { ignore_list := ["yeah", "ok", "okay", "hmm", "right", "uh-huh", "huh", "uh"],
    enabled := true,
    min_interrupt_words := 1,
    verbose_logging := false }

/-- Model of `_normalize_ignore_list`: the derived filler set
`{word.lower().strip() for word in ignore_list}`, modelled as the list of
normalized entries (membership is all that is ever consulted). -/
def _normalize_ignore_list (l : List String) : List String :=
  l.map (fun word => py_strip (py_lower word))

/-- Handler state: the configuration together with the derived normalized
filler set (`self._config`, `self._ignore_list_lower`). -/
structure InterruptionHandler where
  _config : InterruptionHandlerConfig
  _ignore_list_lower : List String

/-- Model of `InterruptionHandler.__init__`: `config or InterruptionHandlerConfig()`
followed by `_normalize_ignore_list`. -/
def InterruptionHandler.init (config : Option InterruptionHandlerConfig) :
    InterruptionHandler :=
  let c := config.getD default_config
  { _config := c, _ignore_list_lower := _normalize_ignore_list c.ignore_list }

/-- Helper for the tokenizer: scan the character list, accumulating the
current (reversed) run of word characters in `acc` and emitting it whenever a
separator or the end of input is reached. -/
def wordsAux : List Char → List Char → List (List Char)
  | [], acc => if acc.isEmpty then [] else [acc.reverse]
  | c :: rest, acc =>
    if isWordChar c then wordsAux rest (c :: acc)
    else if acc.isEmpty then wordsAux rest []
    else acc.reverse :: wordsAux rest []

/-- Model of `_extract_words`: `re.findall(r'\b\w+\b', text.lower())`, i.e. the
maximal runs of word characters of the lower-cased text, in order. -/
def _extract_words (text : String) : List String :=
  (wordsAux (py_lower text).data []).map String.mk

/-- Model of `_has_non_filler_words`: some word lies outside the normalized filler
set. -/
def _has_non_filler_words (h : InterruptionHandler) (words : List String) :
    Bool :=
  words.any (fun word => !(h._ignore_list_lower.contains word))

set_option linter.unusedVariables false in
/-- Model of `should_ignore_interrupt` (the classifier): `True` means ignore the
interrupt, `False` means respond.  `current_agent_state` is accepted and used
only for logging in the source. -/
def InterruptionHandler.should_ignore_interrupt (h : InterruptionHandler)
    (transcript : String) (agent_is_speaking : Bool)
    (current_agent_state : Option String) : Bool :=
  if !h._config.enabled || transcript == "" then false
  else
    let words := _extract_words transcript
    if _has_non_filler_words h words then false
    else if words.isEmpty then false
    else if agent_is_speaking then true
    else false

/-- Model of `get_interrupt_reason` (the reason reporter). -/
def InterruptionHandler.get_interrupt_reason (h : InterruptionHandler)
    (transcript : String) (agent_is_speaking : Bool) : String :=
  let words := _extract_words transcript
  if words.isEmpty then "empty_transcript"
  else if _has_non_filler_words h words then "contains_semantic_content"
  else if agent_is_speaking then "passive_acknowledgement_ignored_agent_speaking"
  else "passive_acknowledgement_agent_silent"

/-- Model of `update_ignore_list`: replace the configured list and re-normalize. -/
def InterruptionHandler.update_ignore_list (h : InterruptionHandler)
    (new_ignore_list : List String) : InterruptionHandler :=
  let c := { h._config with ignore_list := new_ignore_list }
  { _config := c, _ignore_list_lower := _normalize_ignore_list c.ignore_list }

/-- Spec-side splitting helper for the tokenizer refinement: cut the
character list at every separator (non-word character), keeping the possibly
empty segments between separators. -/
def splitFields : List Char → List (List Char)
  | [] => [[]]
  | c :: cs =>
    match splitFields cs with
    | [] => [[]]
    | g :: gs => if isWordChar c then (c :: g) :: gs else [] :: g :: gs

/-- Spec-side tokenizer, following the specification's words: lower-case the
text, then extract the maximal runs of alphanumeric/underscore characters as
tokens, discarding punctuation and whitespace as separators (splitting at
every separator and dropping the empty segments leaves exactly the maximal
word-character runs, in order). -/
def tokenize_spec (text : String) : List String :=
  ((splitFields (py_lower text).data).filter (fun g => !g.isEmpty)).map
    String.mk

/-! ### Basic lemmas about the embedding -/

theorem init_config (cfg : InterruptionHandlerConfig) :
    (InterruptionHandler.init (some cfg))._config = cfg := rfl

theorem init_lower (cfg : InterruptionHandlerConfig) :
    (InterruptionHandler.init (some cfg))._ignore_list_lower =
      _normalize_ignore_list cfg.ignore_list := rfl

theorem extract_words_empty : _extract_words "" = [] := rfl

theorem ne_empty_of_extract_words {t : String} (h : _extract_words t ≠ []) :
    t ≠ "" := by
  intro ht
  exact h (ht ▸ extract_words_empty)

/-- The classifier only reads `enabled` and the normalized filler set. -/
theorem should_ignore_congr (h1 h2 : InterruptionHandler) (t : String)
    (s : Bool) (st st' : Option String)
    (he : h1._config.enabled = h2._config.enabled)
    (hl : h1._ignore_list_lower = h2._ignore_list_lower) :
    h1.should_ignore_interrupt t s st = h2.should_ignore_interrupt t s st' := by
  unfold InterruptionHandler.should_ignore_interrupt _has_non_filler_words
  rw [he, hl]

/-- The reason reporter only reads the normalized filler set. -/
theorem get_reason_congr (h1 h2 : InterruptionHandler) (t : String) (s : Bool)
    (hl : h1._ignore_list_lower = h2._ignore_list_lower) :
    h1.get_interrupt_reason t s = h2.get_interrupt_reason t s := by
  unfold InterruptionHandler.get_interrupt_reason _has_non_filler_words
  rw [hl]

theorem classify_of_nil (h : InterruptionHandler) (t : String) (s : Bool)
    (st : Option String) (hnil : _extract_words t = []) :
    h.should_ignore_interrupt t s st = false := by
  unfold InterruptionHandler.should_ignore_interrupt
  split
  · rfl
  · simp [hnil, _has_non_filler_words]

theorem classify_of_nonfiller (h : InterruptionHandler) (t : String) (s : Bool)
    (st : Option String)
    (hnf : _has_non_filler_words h (_extract_words t) = true) :
    h.should_ignore_interrupt t s st = false := by
  unfold InterruptionHandler.should_ignore_interrupt
  split
  · rfl
  · simp [hnf]

theorem classify_of_filler (h : InterruptionHandler) (t : String) (s : Bool)
    (st : Option String) (he : h._config.enabled = true) (ht : t ≠ "")
    (hnil : _extract_words t ≠ [])
    (hnf : _has_non_filler_words h (_extract_words t) = false) :
    h.should_ignore_interrupt t s st = s := by
  unfold InterruptionHandler.should_ignore_interrupt
  simp [he, ht, hnf, hnil]

theorem reason_of_nil (h : InterruptionHandler) (t : String) (s : Bool)
    (hnil : _extract_words t = []) :
    h.get_interrupt_reason t s = "empty_transcript" := by
  unfold InterruptionHandler.get_interrupt_reason
  simp [hnil]

theorem reason_of_nonfiller (h : InterruptionHandler) (t : String) (s : Bool)
    (hnil : _extract_words t ≠ [])
    (hnf : _has_non_filler_words h (_extract_words t) = true) :
    h.get_interrupt_reason t s = "contains_semantic_content" := by
  unfold InterruptionHandler.get_interrupt_reason
  simp [hnil, hnf]

theorem reason_of_filler (h : InterruptionHandler) (t : String) (s : Bool)
    (hnil : _extract_words t ≠ [])
    (hnf : _has_non_filler_words h (_extract_words t) = false) :
    h.get_interrupt_reason t s =
      if s then "passive_acknowledgement_ignored_agent_speaking"
      else "passive_acknowledgement_agent_silent" := by
  unfold InterruptionHandler.get_interrupt_reason
  simp [hnil, hnf]

/-! ### Claim theorems -/

/-- C2: a non-empty, all-filler token sequence under an enabled configuration
is ignored exactly when the agent is speaking: `classify(t, true) = ignore`
and `classify(t, false) = respond`. -/
theorem C2_filler_only_verdict (cfg : InterruptionHandlerConfig) (t : String)
    (st st' : Option String) (he : cfg.enabled = true)
    (hne : _extract_words t ≠ [])
    (hall : ∀ w ∈ _extract_words t,
      (InterruptionHandler.init (some cfg))._ignore_list_lower.contains w = true) :
    (InterruptionHandler.init (some cfg)).should_ignore_interrupt t true st = true ∧
    (InterruptionHandler.init (some cfg)).should_ignore_interrupt t false st' = false := by
  have hnf : _has_non_filler_words (InterruptionHandler.init (some cfg))
      (_extract_words t) = false := by
    unfold _has_non_filler_words
    rw [List.any_eq_false]
    intro w hw
    have h1 := hall w hw
    simp at h1 ⊢
    exact h1
  have ht : t ≠ "" := ne_empty_of_extract_words hne
  have he' : (InterruptionHandler.init (some cfg))._config.enabled = true := by
    rw [init_config]; exact he
  exact ⟨classify_of_filler _ _ _ _ he' ht hne hnf,
    classify_of_filler _ _ _ _ he' ht hne hnf⟩

theorem C2_filler_only_verdict_witness :
    (InterruptionHandler.init (some default_config)).should_ignore_interrupt
        "yeah" true none = true ∧
    (InterruptionHandler.init (some default_config)).should_ignore_interrupt
        "yeah" false none = false :=
  C2_filler_only_verdict default_config "yeah" none none rfl
    (by decide) (by decide)

/-- C3: if the transcript has at least one token outside the normalized
filler set, the classifier returns respond (`false`), for both values of
`agent_speaking` and any configuration. -/
theorem C3_non_filler_always_responds (cfg : InterruptionHandlerConfig)
    (t : String) (s : Bool) (st : Option String) (w : String)
    (hw : w ∈ _extract_words t)
    (hout : (InterruptionHandler.init (some cfg))._ignore_list_lower.contains w
      = false) :
    (InterruptionHandler.init (some cfg)).should_ignore_interrupt t s st =
      false := by
  have hnf : _has_non_filler_words (InterruptionHandler.init (some cfg))
      (_extract_words t) = true := by
    unfold _has_non_filler_words
    rw [List.any_eq_true]
    refine ⟨w, hw, ?_⟩
    simp at hout ⊢
    exact hout
  exact classify_of_nonfiller _ _ _ _ hnf

theorem C3_non_filler_always_responds_witness :
    "stop" ∈ _extract_words "no stop" ∧
    (InterruptionHandler.init (some default_config))._ignore_list_lower.contains
        "stop" = false ∧
    (InterruptionHandler.init (some default_config)).should_ignore_interrupt
        "no stop" true none = false :=
  ⟨by decide, by decide,
    C3_non_filler_always_responds default_config "no stop" true none "stop"
      (by decide) (by decide)⟩

/-- C4: the classifier returns respond (`false`) whenever the configuration
is disabled, or the transcript is empty, or tokenization yields no tokens. -/
theorem C4_trivial_cases_respond (cfg : InterruptionHandlerConfig) (t : String)
    (s : Bool) (st : Option String)
    (hyp : cfg.enabled = false ∨ t = "" ∨ _extract_words t = []) :
    (InterruptionHandler.init (some cfg)).should_ignore_interrupt t s st =
      false := by
  rcases hyp with h | h | h
  · unfold InterruptionHandler.should_ignore_interrupt
    simp [init_config, h]
  · unfold InterruptionHandler.should_ignore_interrupt
    simp [h]
  · exact classify_of_nil _ _ _ _ h

theorem C4_trivial_cases_respond_witness :
    (_extract_words "..." = []) ∧
    (InterruptionHandler.init (some default_config)).should_ignore_interrupt
        "..." true none = false :=
  ⟨by decide,
    C4_trivial_cases_respond default_config "..." true none
      (Or.inr (Or.inr (by decide)))⟩

/-- C7: after `update_ignore_list L2`, the derived filler set is exactly the
normalization of `L2` (and after construction, of the configured list), and
subsequent `classify`/`explain` calls are independent of the previously
configured list: two handlers with different prior lists agree on every call
after both are updated to `L2`. -/
theorem C7_update_replaces_filler_set (cfg cfg' : InterruptionHandlerConfig)
    (L2 : List String) (t : String) (s : Bool) (st : Option String)
    (he : cfg.enabled = cfg'.enabled) :
    ((InterruptionHandler.init (some cfg)).update_ignore_list
        L2)._ignore_list_lower = _normalize_ignore_list L2 ∧
    (InterruptionHandler.init (some cfg))._ignore_list_lower =
      _normalize_ignore_list cfg.ignore_list ∧
    ((InterruptionHandler.init (some cfg)).update_ignore_list
        L2).should_ignore_interrupt t s st =
      ((InterruptionHandler.init (some cfg')).update_ignore_list
        L2).should_ignore_interrupt t s st ∧
    ((InterruptionHandler.init (some cfg)).update_ignore_list
        L2).get_interrupt_reason t s =
      ((InterruptionHandler.init (some cfg')).update_ignore_list
        L2).get_interrupt_reason t s := by
  refine ⟨rfl, rfl, ?_, ?_⟩
  · exact should_ignore_congr _ _ _ _ _ _ he rfl
  · exact get_reason_congr _ _ _ _ rfl

theorem C7_update_replaces_filler_set_witness :
    ((InterruptionHandler.init (some default_config)).update_ignore_list
        ["yep"])._ignore_list_lower = _normalize_ignore_list ["yep"] ∧
    (InterruptionHandler.init (some default_config))._ignore_list_lower =
      _normalize_ignore_list default_config.ignore_list ∧
    ((InterruptionHandler.init (some default_config)).update_ignore_list
        ["yep"]).should_ignore_interrupt "yeah" true none =
      ((InterruptionHandler.init
          (some { default_config with ignore_list := ["zzz"] })).update_ignore_list
        ["yep"]).should_ignore_interrupt "yeah" true none ∧
    ((InterruptionHandler.init (some default_config)).update_ignore_list
        ["yep"]).get_interrupt_reason "yeah" true =
      ((InterruptionHandler.init
          (some { default_config with ignore_list := ["zzz"] })).update_ignore_list
        ["yep"]).get_interrupt_reason "yeah" true :=
  C7_update_replaces_filler_set default_config
    { default_config with ignore_list := ["zzz"] } ["yep"] "yeah" true none rfl

/-- C8: totality — every input yields a definite boolean verdict and one of
the four reason codes; no other outcome is possible. -/
theorem C8_totality (h : InterruptionHandler) (t : String) (s : Bool)
    (st : Option String) :
    (h.should_ignore_interrupt t s st = true ∨
      h.should_ignore_interrupt t s st = false) ∧
    (h.get_interrupt_reason t s = "empty_transcript" ∨
      h.get_interrupt_reason t s = "contains_semantic_content" ∨
      h.get_interrupt_reason t s = "passive_acknowledgement_ignored_agent_speaking" ∨
      h.get_interrupt_reason t s = "passive_acknowledgement_agent_silent") := by
  constructor
  · exact Bool.eq_false_or_eq_true _
  · by_cases h1 : _extract_words t = []
    · exact Or.inl (reason_of_nil _ _ _ h1)
    · by_cases h2 : _has_non_filler_words h (_extract_words t) = true
      · exact Or.inr (Or.inl (reason_of_nonfiller _ _ _ h1 h2))
      · rw [Bool.not_eq_true] at h2
        rw [reason_of_filler _ _ _ h1 h2]
        cases s
        · exact Or.inr (Or.inr (Or.inr rfl))
        · exact Or.inr (Or.inr (Or.inl rfl))

/-- C9: the verdict is independent of `verbose_logging`,
`min_interrupt_words` and `current_agent_state`: configurations agreeing on
the ignore list and the enabled flag yield the same boolean for any values of
those three inputs. -/
theorem C9_verdict_independence (cfg cfg' : InterruptionHandlerConfig)
    (t : String) (s : Bool) (st st' : Option String)
    (hi : cfg.ignore_list = cfg'.ignore_list) (he : cfg.enabled = cfg'.enabled) :
    (InterruptionHandler.init (some cfg)).should_ignore_interrupt t s st =
      (InterruptionHandler.init (some cfg')).should_ignore_interrupt t s st' := by
  apply should_ignore_congr
  · rw [init_config, init_config, he]
  · rw [init_lower, init_lower, hi]

theorem C9_verdict_independence_witness :
    (InterruptionHandler.init (some default_config)).should_ignore_interrupt
        "yeah" true none =
      (InterruptionHandler.init
          (some
            { default_config with min_interrupt_words := 42, verbose_logging := true })).should_ignore_interrupt
        "yeah" true (some "speaking") :=
  C9_verdict_independence default_config
    { default_config with min_interrupt_words := 42, verbose_logging := true }
    "yeah" true none (some "speaking") rfl rfl

/-! ### Tokens consist of word characters only -/

theorem wordsAux_word_chars : ∀ (l acc : List Char),
    (∀ c ∈ acc, isWordChar c = true) →
    ∀ g ∈ wordsAux l acc, ∀ c ∈ g, isWordChar c = true := by
  intro l
  induction l with
  | nil =>
    intro acc hacc g hg c hc
    unfold wordsAux at hg
    by_cases ha : acc.isEmpty = true
    · rw [if_pos ha] at hg
      exact absurd hg (List.not_mem_nil g)
    · rw [if_neg ha] at hg
      have hge := List.mem_singleton.mp hg
      subst hge
      exact hacc c (List.mem_reverse.mp hc)
  | cons d rest ih =>
    intro acc hacc g hg c hc
    unfold wordsAux at hg
    by_cases hw : isWordChar d = true
    · rw [if_pos hw] at hg
      refine ih (d :: acc) ?_ g hg c hc
      intro x hx
      rcases List.mem_cons.mp hx with hx' | hx'
      · exact hx' ▸ hw
      · exact hacc x hx'
    · rw [if_neg hw] at hg
      by_cases ha : acc.isEmpty = true
      · rw [if_pos ha] at hg
        exact ih [] (fun x hx => absurd hx (List.not_mem_nil x)) g hg c hc
      · rw [if_neg ha] at hg
        rcases List.mem_cons.mp hg with hg' | hg'
        · subst hg'
          exact hacc c (List.mem_reverse.mp hc)
        · exact ih [] (fun x hx => absurd hx (List.not_mem_nil x)) g hg' c hc

theorem mem_extract_words_word_chars {t w : String}
    (hw : w ∈ _extract_words t) : ∀ c ∈ w.data, isWordChar c = true := by
  unfold _extract_words at hw
  rcases List.mem_map.mp hw with ⟨g, hg, hge⟩
  subst hge
  intro c hc
  exact wordsAux_word_chars _ [] (fun x hx => absurd hx (List.not_mem_nil x))
    g hg c hc

/-- C10: with the default configuration, `classify("uh-huh", true)` is
ignore; the tokenizer splits the compound into `uh` and `huh`, the literal
entry `uh-huh` can never match any token of any transcript (tokens contain
no hyphen), and the default normalized list contains `uh` and `huh`. -/
theorem C10_default_uh_huh :
    (InterruptionHandler.init none).should_ignore_interrupt "uh-huh" true none
        = true ∧
    (∀ t : String, "uh-huh" ∉ _extract_words t) ∧
    (InterruptionHandler.init none)._ignore_list_lower.contains "uh" = true ∧
    (InterruptionHandler.init none)._ignore_list_lower.contains "huh" = true ∧
    _extract_words "uh-huh" = ["uh", "huh"] := by
  refine ⟨by decide, ?_, by decide, by decide, by decide⟩
  intro t hmem
  have hwc := mem_extract_words_word_chars hmem '-' (by decide)
  exact absurd hwc (by decide)

/-- C1 (amended): for every configuration with `enabled = true`, `explain`
agrees with `classify`: the reason is
`passive_acknowledgement_ignored_agent_speaking` iff the verdict is ignore,
and the reason is `contains_semantic_content` iff the verdict is respond
because a non-filler token is present. -/
theorem C1_explain_classify_agreement (cfg : InterruptionHandlerConfig)
    (t : String) (s : Bool) (st : Option String) (he : cfg.enabled = true) :
    ((InterruptionHandler.init (some cfg)).get_interrupt_reason t s =
        "passive_acknowledgement_ignored_agent_speaking" ↔
      (InterruptionHandler.init (some cfg)).should_ignore_interrupt t s st =
        true) ∧
    ((InterruptionHandler.init (some cfg)).get_interrupt_reason t s =
        "contains_semantic_content" ↔
      ((InterruptionHandler.init (some cfg)).should_ignore_interrupt t s st =
          false ∧
        _has_non_filler_words (InterruptionHandler.init (some cfg))
          (_extract_words t) = true)) := by
  set h := InterruptionHandler.init (some cfg) with hh
  by_cases h1 : _extract_words t = []
  · rw [reason_of_nil h t s h1, classify_of_nil h t s st h1]
    refine ⟨⟨fun hx => absurd hx (by decide), fun hx => absurd hx (by decide)⟩,
      ⟨fun hx => absurd hx (by decide), ?_⟩⟩
    rintro ⟨-, h2⟩
    rw [h1] at h2
    simp [_has_non_filler_words] at h2
  · by_cases h2 : _has_non_filler_words h (_extract_words t) = true
    · rw [reason_of_nonfiller h t s h1 h2, classify_of_nonfiller h t s st h2]
      exact ⟨⟨fun hx => absurd hx (by decide), fun hx => absurd hx (by decide)⟩,
        ⟨fun _ => ⟨rfl, h2⟩, fun _ => rfl⟩⟩
    · rw [Bool.not_eq_true] at h2
      have ht : t ≠ "" := ne_empty_of_extract_words h1
      have he' : h._config.enabled = true := by rw [hh, init_config]; exact he
      rw [reason_of_filler h t s h1 h2, classify_of_filler h t s st he' ht h1 h2]
      cases s
      · refine ⟨⟨fun hx => absurd hx (by decide),
          fun hx => absurd hx (by decide)⟩,
          ⟨fun hx => absurd hx (by decide), ?_⟩⟩
        rintro ⟨-, hx⟩
        rw [h2] at hx
        exact absurd hx (by decide)
      · exact ⟨⟨fun _ => rfl, fun _ => rfl⟩,
          ⟨fun hx => absurd hx (by decide),
            fun hx => absurd hx.1 (by decide)⟩⟩

theorem C1_explain_classify_agreement_witness :
    ((InterruptionHandler.init (some default_config)).get_interrupt_reason
        "yeah" true = "passive_acknowledgement_ignored_agent_speaking" ↔
      (InterruptionHandler.init (some default_config)).should_ignore_interrupt
        "yeah" true none = true) ∧
    ((InterruptionHandler.init (some default_config)).get_interrupt_reason
        "yeah" true = "contains_semantic_content" ↔
      ((InterruptionHandler.init (some default_config)).should_ignore_interrupt
          "yeah" true none = false ∧
        _has_non_filler_words (InterruptionHandler.init (some default_config))
          (_extract_words "yeah") = true)) :=
  C1_explain_classify_agreement default_config "yeah" true none rfl

/-- C1 fails as frozen: with the default filler list but `enabled = false`,
on transcript `"yeah"` while the agent speaks, `explain` reports
`passive_acknowledgement_ignored_agent_speaking` while `classify` returns
respond (`false`), so the claimed agreement does not extend to disabled
configurations. -/
theorem C1_disabled_counterexample :
    (InterruptionHandler.init
        (some { default_config with enabled := false })).get_interrupt_reason
        "yeah" true = "passive_acknowledgement_ignored_agent_speaking" ∧
    (InterruptionHandler.init
        (some { default_config with enabled := false })).should_ignore_interrupt
        "yeah" true none = false := ⟨by decide, by decide⟩

/-! ### The tokenizer refines the spec-side description -/

theorem splitFields_ne_nil (l : List Char) : splitFields l ≠ [] := by
  cases l with
  | nil => simp [splitFields]
  | cons c cs =>
    unfold splitFields
    cases splitFields cs with
    | nil => simp
    | cons g gs =>
      by_cases hw : isWordChar c = true <;> simp [hw]

theorem wordsAux_eq_splitFields (l : List Char) : ∀ (acc g : List Char)
    (gs : List (List Char)), splitFields l = g :: gs →
    wordsAux l acc =
      (if acc.isEmpty && g.isEmpty then [] else [acc.reverse ++ g]) ++
        gs.filter (fun x => !x.isEmpty) := by
  induction l with
  | nil =>
    intro acc g gs h
    unfold splitFields at h
    injection h with h1 h2
    subst h1
    subst h2
    cases acc <;> simp [wordsAux]
  | cons c cs ih =>
    intro acc g gs h
    obtain ⟨g', gs', hcs⟩ : ∃ g' gs', splitFields cs = g' :: gs' := by
      cases hx : splitFields cs with
      | nil => exact absurd hx (splitFields_ne_nil cs)
      | cons a b => exact ⟨a, b, rfl⟩
    have hstep : splitFields (c :: cs) =
        if isWordChar c then (c :: g') :: gs' else [] :: g' :: gs' := by
      unfold splitFields
      rw [hcs]
    rw [hstep] at h
    by_cases hw : isWordChar c = true
    · rw [if_pos hw] at h
      injection h with h1 h2
      subst h1
      subst h2
      unfold wordsAux
      rw [if_pos hw, ih (c :: acc) g' gs' hcs]
      simp [List.reverse_cons, List.append_assoc]
    · rw [if_neg hw] at h
      injection h with h1 h2
      subst h1
      subst h2
      unfold wordsAux
      rw [if_neg hw]
      by_cases ha : acc.isEmpty = true
      · have hacc : acc = [] := by
          cases acc
          · rfl
          · simp at ha
        subst hacc
        rw [if_pos ha, ih [] g' gs' hcs]
        by_cases hg : g'.isEmpty = true <;> simp [hg, List.filter_cons]
      · rw [if_neg ha, ih [] g' gs' hcs]
        by_cases hg : g'.isEmpty = true <;> simp [ha, hg, List.filter_cons]

theorem wordsAux_nil_eq_filter (l : List Char) :
    wordsAux l [] = (splitFields l).filter (fun g => !g.isEmpty) := by
  obtain ⟨g, gs, h⟩ : ∃ g gs, splitFields l = g :: gs := by
    cases hx : splitFields l with
    | nil => exact absurd hx (splitFields_ne_nil l)
    | cons a b => exact ⟨a, b, rfl⟩
  rw [wordsAux_eq_splitFields l [] g gs h, h, List.filter_cons]
  by_cases hg : g.isEmpty = true <;> simp [hg]

theorem wordsAux_all_sep (l : List Char)
    (h : ∀ c ∈ l, isWordChar c = false) : wordsAux l [] = [] := by
  induction l with
  | nil => rfl
  | cons c cs ih =>
    unfold wordsAux
    rw [if_neg (by simp [h c (List.mem_cons_self c cs)])]
    simpa using ih (fun x hx => h x (List.mem_cons_of_mem c hx))

/-- C5: the tokenizer lower-cases its input and returns exactly the maximal
runs of alphanumeric/underscore characters in order (it agrees everywhere
with the spec-side `tokenize_spec`); in particular `"uh-huh"` splits into
`["uh", "huh"]`, and any input whose characters are all separators
(empty, whitespace-only or punctuation-only) yields no tokens. -/
theorem C5_tokenizer_maximal_runs (t u : String)
    (hu : ∀ c ∈ (py_lower u).data, isWordChar c = false) :
    _extract_words t = tokenize_spec t ∧
    _extract_words "uh-huh" = ["uh", "huh"] ∧
    _extract_words u = [] := by
  refine ⟨?_, by decide, ?_⟩
  · unfold _extract_words tokenize_spec
    rw [wordsAux_nil_eq_filter]
  · unfold _extract_words
    rw [wordsAux_all_sep (py_lower u).data hu]
    rfl

theorem C5_tokenizer_maximal_runs_witness :
    (∀ c ∈ (py_lower " ...!? ").data, isWordChar c = false) ∧
    (_extract_words "Yeah, okay!" = tokenize_spec "Yeah, okay!" ∧
      _extract_words "uh-huh" = ["uh", "huh"] ∧
      _extract_words " ...!? " = []) :=
  ⟨by decide, C5_tokenizer_maximal_runs "Yeah, okay!" " ...!? " (by decide)⟩

/-! ### Case-insensitivity -/

theorem char_toNat_ofNat_valid {n : Nat} (h : n.isValidChar) :
    (Char.ofNat n).toNat = n := by
  rw [Char.ofNat, dif_pos h]
  rfl

theorem char_toLower_toUpper (c : Char) : c.toUpper.toLower = c.toLower := by
  unfold Char.toUpper Char.toLower
  by_cases h : c.toNat ≥ 97 ∧ c.toNat ≤ 122
  · rw [if_pos h]
    have h1 : (Char.ofNat (c.toNat - 32)).toNat = c.toNat - 32 :=
      char_toNat_ofNat_valid (Or.inl (by omega))
    rw [h1, if_pos (by omega : c.toNat - 32 ≥ 65 ∧ c.toNat - 32 ≤ 90),
      if_neg (by omega : ¬(c.toNat ≥ 65 ∧ c.toNat ≤ 90))]
    have he : c.toNat - 32 + 32 = c.toNat := by omega
    rw [he, Char.ofNat_toNat]
  · rw [if_neg h]

theorem py_lower_py_upper (t : String) : py_lower (py_upper t) = py_lower t := by
  show String.mk (List.map Char.toLower (List.map Char.toUpper t.data)) =
    String.mk (List.map Char.toLower t.data)
  have hfun : Char.toLower ∘ Char.toUpper = Char.toLower :=
    funext char_toLower_toUpper
  rw [List.map_map, hfun]

theorem extract_words_py_upper (t : String) :
    _extract_words (py_upper t) = _extract_words t := by
  unfold _extract_words
  rw [py_lower_py_upper]

theorem string_eq_empty_iff (t : String) : t = "" ↔ t.data = [] := by
  constructor
  · intro h
    rw [h]
  · intro h
    cases t with
    | mk l =>
      have hl : l = [] := h
      rw [hl]

theorem py_upper_empty_iff (t : String) : py_upper t = "" ↔ t = "" := by
  rw [string_eq_empty_iff, string_eq_empty_iff]
  show List.map Char.toUpper t.data = [] ↔ t.data = []
  exact List.map_eq_nil_iff

/-- C6: for every transcript all of whose tokens are in the filler set, the
verdict is unchanged by upper-casing the transcript. -/
theorem C6_case_insensitivity (cfg : InterruptionHandlerConfig) (t : String)
    (s : Bool) (st : Option String)
    (hall : ∀ w ∈ _extract_words t,
      (InterruptionHandler.init (some cfg))._ignore_list_lower.contains w =
        true) :
    (InterruptionHandler.init (some cfg)).should_ignore_interrupt t s st =
      (InterruptionHandler.init (some cfg)).should_ignore_interrupt
        (py_upper t) s st := by
  unfold InterruptionHandler.should_ignore_interrupt
  rw [extract_words_py_upper]
  by_cases ht : t = ""
  · subst ht
    rfl
  · have ht2 : ¬(py_upper t = "") := fun hx => ht ((py_upper_empty_iff t).mp hx)
    have hb1 : (t == "") = false := by simp [ht]
    have hb2 : (py_upper t == "") = false := by simp [ht2]
    rw [hb1, hb2]

theorem C6_case_insensitivity_witness :
    (∀ w ∈ _extract_words "yeah",
      (InterruptionHandler.init (some default_config))._ignore_list_lower.contains
        w = true) ∧
    (InterruptionHandler.init (some default_config)).should_ignore_interrupt
        "yeah" true none =
      (InterruptionHandler.init (some default_config)).should_ignore_interrupt
        (py_upper "yeah") true none :=
  ⟨by decide, C6_case_insensitivity default_config "yeah" true none (by decide)⟩
